import Mathlib

/-!
Verification of the voice-note capture–transcribe–persist pipeline of
`telconas/voicenotes` (`src/App.tsx`), against its natural-language
specification.

The embedding is shallow:

* `VoiceNote` mirrors the TypeScript interface of the same name.
* `Json` models the JavaScript values produced by the platform's
  `JSON.parse` (and consumed by `JSON.stringify`); `Stored` classifies the
  contents of the `localStorage` slot `voiceNotes` by the platform contract
  of `localStorage.getItem` and `JSON.parse` (absent / empty string /
  syntactically invalid / parses to a unique JSON value).
* The store operations (`insertNote`, `deleteNote`, `toggleNoteCompletion`,
  `filteredNotes`) are direct transliterations of the corresponding
  functions of `App.tsx`.
* `transcribeAudio` models the async function of the same name: its
  behaviour is a pure function of the HTTP response and of the React render
  closure (`Closure`) it captured, plus the `Date.now()` reading taken when
  the response handler runs.
* `appStep` is a small-step event semantics of the component: the runtime
  is single threaded and event driven, so a trace is a list of events
  (user actions and promise resolutions) processed in order.  React state
  updates scheduled by a handler are visible to the next event, and the
  handlers installed by `startRecording` (the recorder's `stop` listener
  and, through it, `transcribeAudio`) read the state captured by the render
  closure current when the record button was clicked.
-/

/-! ## JSON values (the results of the platform's `JSON.parse`) -/

/-- Model of a JavaScript value produced by `JSON.parse`.  Object fields
are listed in property order; a parsed object has pairwise-distinct keys
(later duplicates in the source text overwrite earlier ones before the
value is returned). -/
inductive Json where
  | null
  | bool (b : Bool)
  | num (n : Int)
  | str (s : String)
  | arr (elems : List Json)
  | obj (fields : List (String × Json))

/-- Property access `j.key` on a parsed JSON value, as JavaScript resolves
it: a present field yields its value, anything else yields `undefined`
(modelled as `none`).  Access on `null` is not covered here because it
throws; callers guard with `Json.isNull`. -/
def jsonLookup : List (String × Json) → String → Option Json
  | [], _ => none
  | (k, v) :: rest, key => if k == key then some v else jsonLookup rest key

/-- Field access on a JSON value: `undefined` (`none`) unless the value is
an object with the field present. -/
def Json.lookup (j : Json) (key : String) : Option Json :=
  match j with
  | .obj fields => jsonLookup fields key
  | _ => none

/-- Whether the JSON value is `null` (property access on it throws a
`TypeError` in JavaScript). -/
def Json.isNull : Json → Bool
  | .null => true
  | _ => false

/-! ## Calendar dates and `format(date, 'yyyy-MM-dd')` -/

/-- A calendar date at day granularity.  The component keeps a `Date`
object in `selectedDate`; only the calendar day is observable through
`format(selectedDate, 'yyyy-MM-dd')`, so the time-of-day components are
omitted. -/
structure CalDate where
  year : Nat
  month : Nat
  day : Nat
deriving DecidableEq, Repr

/-- Zero padding to two characters, as `date-fns` pads `MM` and `dd`. -/
def pad2 (n : Nat) : String :=
  if n < 10 then "0" ++ Nat.repr n else Nat.repr n

/-- Zero padding to four characters, as `date-fns` pads `yyyy`. -/
def pad4 (n : Nat) : String :=
  if n < 10 then "000" ++ Nat.repr n
  else if n < 100 then "00" ++ Nat.repr n
  else if n < 1000 then "0" ++ Nat.repr n
  else Nat.repr n

/-- The `date-fns` call `format(d, 'yyyy-MM-dd')` used throughout
`App.tsx`. -/
def formatDate (d : CalDate) : String :=
  pad4 d.year ++ "-" ++ pad2 d.month ++ "-" ++ pad2 d.day

/-! ## The note data model (`interface VoiceNote`) -/

/-- The TypeScript interface `VoiceNote` of `App.tsx`. -/
structure VoiceNote where
  id : String
  date : String
  text : String
  completed : Bool
deriving DecidableEq, Repr

/-! ## Store operations of `App.tsx` -/

/-- The insertion performed on transcription success:
`setVoiceNotes([...voiceNotes, newNote])`. -/
def insertNote (notes : List VoiceNote) (n : VoiceNote) : List VoiceNote :=
  notes ++ [n]

/-- The function `deleteNote` of `App.tsx`:
`voiceNotes.filter(note => note.id !== id)`. -/
def deleteNote (notes : List VoiceNote) (id : String) : List VoiceNote :=
  notes.filter (fun note => note.id != id)

/-- The function `toggleNoteCompletion` of `App.tsx`:
`voiceNotes.map(note => note.id === id ? { ...note, completed: !note.completed } : note)`. -/
def toggleNoteCompletion (notes : List VoiceNote) (id : String) : List VoiceNote :=
  notes.map (fun note =>
    if note.id == id then { note with completed := !note.completed } else note)

/-- Decidable check that `pat` occurs as a contiguous run inside `l`,
mirroring JavaScript's `String.prototype.includes` on the underlying
character sequences. -/
def hasInfix (l pat : List Char) : Bool :=
  if pat.isPrefixOf l then true
  else
    match l with
    | [] => false
    | _ :: rest => hasInfix rest pat

/-- JavaScript's `haystack.includes(needle)` on strings. -/
def strIncludes (haystack needle : String) : Bool :=
  hasInfix haystack.data needle.data

/-- JavaScript's `String.prototype.toLowerCase`, modelled as lowercasing
each character. -/
def strToLower (s : String) : String :=
  ⟨s.data.map Char.toLower⟩

/-- The derived view `filteredNotes` of `App.tsx`:
`voiceNotes.filter(note => note.date === format(selectedDate, 'yyyy-MM-dd') && note.text.toLowerCase().includes(searchTerm.toLowerCase()))`.
This realises the spec's `query(date, searchSubstring)`. -/
def filteredNotes (voiceNotes : List VoiceNote) (selectedDate : CalDate)
    (searchTerm : String) : List VoiceNote :=
  voiceNotes.filter (fun note =>
    note.date == formatDate selectedDate &&
      strIncludes (strToLower note.text) (strToLower searchTerm))

/-! ## Durable persistence (`localStorage` slot `voiceNotes`) -/

/-- JSON encoding of one note, with fields in the property order of the
object literal in `transcribeAudio` (this is what
`JSON.stringify(voiceNotes)` serialises). -/
def encodeNote (n : VoiceNote) : Json :=
  .obj [("id", .str n.id), ("date", .str n.date),
        ("text", .str n.text), ("completed", .bool n.completed)]

/-- JSON encoding of the whole collection, as written by the persist
effect `localStorage.setItem('voiceNotes', JSON.stringify(voiceNotes))`. -/
def encodeNotes (notes : List VoiceNote) : Json :=
  .arr (notes.map encodeNote)

/-- Shape decoder for one note: the JSON values that denote a well-formed
`VoiceNote` record.  `App.tsx` performs no such validation (it casts the
parse result), so this decoder only serves to express which parsed values
are the image of actual note collections. -/
def decodeNote (j : Json) : Option VoiceNote :=
  match j with
  | .obj [("id", .str i), ("date", .str d), ("text", .str t), ("completed", .bool c)] =>
    some ⟨i, d, t, c⟩
  | _ => none

/-- Shape decoder for a list of notes. -/
def decodeNoteList : List Json → Option (List VoiceNote)
  | [] => some []
  | j :: rest =>
    match decodeNote j, decodeNoteList rest with
    | some n, some ns => some (n :: ns)
    | _, _ => none

/-- Shape decoder for the persisted collection. -/
def decodeNotes (j : Json) : Option (List VoiceNote) :=
  match j with
  | .arr elems => decodeNoteList elems
  | _ => none

/-- Classification of the content of the `voiceNotes` storage slot, by the
platform contract: `getItem` yields `null` (`absent`) or a string, and a
string is the empty string (falsy in the `if (savedNotes)` guard), a
string `JSON.parse` rejects (`malformed`), or a string parsing to a unique
JSON value. -/
inductive Stored where
  | absent
  | emptyString
  | malformed
  | value (j : Json)

/-- Outcome of the load effect of `App.tsx` (the first `useEffect`):
either the component state after the effect, the raw parsed value when it
is not a well-formed note array (the code installs it in the state
untyped), or an uncaught exception (`JSON.parse` throws and nothing
catches it, so the effect aborts and the error surfaces). -/
inductive LoadResult where
  | notes (ns : List VoiceNote)
  | illFormed (j : Json)
  | thrown

/-- The load effect of `App.tsx`:
`const savedNotes = localStorage.getItem('voiceNotes'); if (savedNotes) { setVoiceNotes(JSON.parse(savedNotes)); }`.
There is no `try`/`catch`: a `JSON.parse` failure escapes the effect. -/
def loadNotes (st : Stored) : LoadResult :=
  match st with
  | .absent => .notes []
  | .emptyString => .notes []
  | .malformed => .thrown
  | .value j =>
    match decodeNotes j with
    | some ns => .notes ns
    | none => .illFormed j

/-- The persist effect of `App.tsx` (the second `useEffect`):
`localStorage.setItem('voiceNotes', JSON.stringify(voiceNotes))`, run
after every change of `voiceNotes`.  `JSON.stringify` of a note array
always produces a nonempty string that parses back to the same JSON
value. -/
def persistNotes (notes : List VoiceNote) : Stored :=
  .value (encodeNotes notes)

/-- A store mutation, as in the spec's round-trip law. -/
inductive StoreOp where
  | insert (n : VoiceNote)
  | delete (id : String)
  | toggle (id : String)

/-- Apply one mutation to the in-memory collection. -/
def applyStoreOp (notes : List VoiceNote) : StoreOp → List VoiceNote
  | .insert n => insertNote notes n
  | .delete id => deleteNote notes id
  | .toggle id => toggleNoteCompletion notes id

/-- Apply a finite sequence of mutations in order. -/
def applyStoreOps (notes : List VoiceNote) (ops : List StoreOp) : List VoiceNote :=
  ops.foldl applyStoreOp notes

/-! ## The transcription request (`transcribeAudio`) -/

/-- Body of an HTTP response, as seen through `response.json()`: either a
string `JSON.parse` rejects (the promise rejects) or one parsing to a
JSON value. -/
inductive RespBody where
  | invalidJson
  | json (j : Json)

/-- Outcome of `fetch` for the transcription request: network failure (the
promise rejects, no response) or a response with a status code and a
body. -/
inductive TranscriptionResponse where
  | networkFailure
  | http (status : Nat) (body : RespBody)

/-- The exceptions that can reach the `catch` block of `transcribeAudio`. -/
inductive TranscribeError where
  | unreachable
  | httpStatus (status : Nat)
  | invalidJsonBody
  | nullBodyAccess
deriving DecidableEq, Repr

/-- `response.ok`: status in the inclusive range 200–299. -/
def respOk (status : Nat) : Bool :=
  decide (200 ≤ status ∧ status < 300)

/-- A note value as it exists at runtime: identical to `VoiceNote` except
that the `text` field holds whatever `data.text` evaluated to — `none`
models the JavaScript value `undefined` (TypeScript's type is not enforced
at runtime). -/
structure RtNote where
  id : String
  date : String
  text : Option Json
  completed : Bool

/-- The part of a render closure that `startRecording` (and through it the
recorder's `stop` listener and `transcribeAudio`) captures: the values of
`selectedDate` and `voiceNotes` in the render in which the record button
was clicked. -/
structure Closure where
  selectedDate : CalDate
  voiceNotes : List RtNote

/-- Result of one run of `transcribeAudio`: on success the constructed
note (to be appended to the closure's `voiceNotes`), otherwise the caught
error (logged by `console.error`; no note is created). -/
inductive TranscribeOutcome where
  | success (note : RtNote)
  | failure (e : TranscribeError)

/-- The async function `transcribeAudio` of `App.tsx`, as a function of
the render closure `c` it captured, the `Date.now()` reading `now` taken
when the response handler resumes, and the HTTP response.  Mirrors the
code order: `fetch` rejection → catch; `!response.ok` → throw carrying the
status; `response.json()` rejection → catch; `data.text` on a `null` body
→ `TypeError` → catch; otherwise the note
`{ id: Date.now().toString(), date: format(selectedDate, 'yyyy-MM-dd'), text: data.text, completed: false }`
is built and inserted. -/
def transcribeAudio (c : Closure) (now : Nat) (resp : TranscriptionResponse) :
    TranscribeOutcome :=
  match resp with
  | .networkFailure => .failure .unreachable
  | .http status body =>
    if respOk status then
      match body with
      | .invalidJson => .failure .invalidJsonBody
      | .json j =>
        if j.isNull then .failure .nullBodyAccess
        else .success ⟨Nat.repr now, formatDate c.selectedDate, j.lookup "text", false⟩
    else .failure (.httpStatus status)

/-! ## Event semantics of the component -/

/-- Component state.  `mediaRecorder` holds the last recorder handle
created (never reset to `null`), paired with the closure its `stop`
listener captured and a flag for whether it is still recording.
`pendingStart` queues the closures of `startRecording` calls whose
`getUserMedia` promise has not settled yet.  `inflight` holds the closures
of transcription requests awaiting their HTTP response.  `acquisitions`
counts resolved `getUserMedia` acquisitions and `errorsReported` counts
`console.error` calls — observability instrumentation only. -/
structure AppState where
  selectedDate : CalDate
  voiceNotes : List RtNote
  recording : Bool
  mediaRecorder : Option (Closure × Bool)
  pendingStart : List Closure
  inflight : List Closure
  acquisitions : Nat
  errorsReported : Nat

/-- An event-loop task: a user action or the resolution of one of the two
suspension points (`getUserMedia`, the transcription fetch).  `resolve`
names the in-flight request by its position and carries the `Date.now()`
reading at resolution time and the HTTP response. -/
inductive AppEvent where
  | selectDate (d : CalDate)
  | clickRecord
  | deviceGranted
  | deviceDenied
  | clickStop
  | resolve (idx : Nat) (now : Nat) (resp : TranscriptionResponse)

/-- One step of the event loop.

* `selectDate`: the calendar's `onChange` sets `selectedDate`.
* `clickRecord`: the record button is rendered with
  `disabled={recording}`, so the click only fires when `recording` is
  `false`; `startRecording` then runs `setRecording(true)` and suspends on
  `getUserMedia`, its closure capturing the current render's state.
* `deviceGranted`: the oldest pending `getUserMedia` resolves; a
  `MediaRecorder` is created over the stream (one device acquisition),
  `setMediaRecorder` installs it, listeners are attached, recording
  starts.
* `deviceDenied`: the promise rejects; the `catch` block only calls
  `console.error` — in particular `recording` is left unchanged.
* `clickStop`: `stopRecording` runs `if (mediaRecorder && recording)`;
  when the guard passes it stops the recorder (firing the `stop` listener,
  which finalises the clip and calls `transcribeAudio`, suspending on
  `fetch`) and runs `setRecording(false)`.  Stopping an already inactive
  recorder fires no event.
* `resolve`: an in-flight transcription settles; on success
  `setVoiceNotes([...voiceNotes, newNote])` writes the closure's
  `voiceNotes` plus the new note, on failure `console.error` runs; in
  both cases the `finally` block runs `setRecording(false)`. -/
def appStep (s : AppState) (e : AppEvent) : AppState :=
  match e with
  | .selectDate d => { s with selectedDate := d }
  | .clickRecord =>
    if s.recording then s
    else
      { s with
        recording := true
        pendingStart := s.pendingStart ++ [⟨s.selectedDate, s.voiceNotes⟩] }
  | .deviceGranted =>
    match s.pendingStart with
    | [] => s
    | c :: rest =>
      { s with
        pendingStart := rest
        mediaRecorder := some (c, true)
        acquisitions := s.acquisitions + 1 }
  | .deviceDenied =>
    match s.pendingStart with
    | [] => s
    | _ :: rest =>
      { s with
        pendingStart := rest
        errorsReported := s.errorsReported + 1 }
  | .clickStop =>
    if s.recording then
      match s.mediaRecorder with
      | none => s
      | some (c, active) =>
        if active then
          { s with
            recording := false
            mediaRecorder := some (c, false)
            inflight := s.inflight ++ [c] }
        else { s with recording := false }
    else s
  | .resolve idx now resp =>
    match s.inflight[idx]? with
    | none => s
    | some c =>
      match transcribeAudio c now resp with
      | .success note =>
        { s with
          inflight := s.inflight.eraseIdx idx
          voiceNotes := c.voiceNotes ++ [note]
          recording := false }
      | .failure _ =>
        { s with
          inflight := s.inflight.eraseIdx idx
          errorsReported := s.errorsReported + 1
          recording := false }

/-- Run a list of event-loop tasks in order. -/
def runApp (s : AppState) (es : List AppEvent) : AppState :=
  es.foldl appStep s

/-- Component state right after mount: `selectedDate` starts at the
current date, the note collection at the hydrated value, nothing
recording, `mediaRecorder` null, no pending promises. -/
def initState (d : CalDate) (loaded : List RtNote) : AppState :=
  ⟨d, loaded, false, none, [], [], 0, 0⟩

/-- The `Date.now()` readings of the `resolve` events of a trace, in
order. -/
def resolveNows : List AppEvent → List Nat
  | [] => []
  | .resolve _ now _ :: es => now :: resolveNows es
  | _ :: es => resolveNows es

/-! ## Injectivity of `Nat.repr` (decimal timestamps as note ids) -/

/-- Decimal digit characters of `n`, most significant first: the
specification of what `Nat.toDigits 10` computes. -/
def decDigits (n : Nat) : List Char :=
  if _ : n < 10 then [Nat.digitChar n]
  else decDigits (n / 10) ++ [Nat.digitChar (n % 10)]
decreasing_by exact Nat.div_lt_self (by omega) (by omega)

theorem decDigits_lt {n : Nat} (h : n < 10) : decDigits n = [Nat.digitChar n] := by
  rw [decDigits]
  simp [h]

theorem decDigits_ge {n : Nat} (h : ¬ n < 10) :
    decDigits n = decDigits (n / 10) ++ [Nat.digitChar (n % 10)] := by
  rw [decDigits]
  simp [h]

theorem decDigits_ne_nil (n : Nat) : decDigits n ≠ [] := by
  by_cases h : n < 10
  · rw [decDigits_lt h]
    simp
  · rw [decDigits_ge h]
    simp

theorem toDigitsCore_eq_decDigits :
    ∀ (fuel n : Nat) (ds : List Char), n < fuel →
      Nat.toDigitsCore 10 fuel n ds = decDigits n ++ ds := by
  intro fuel
  induction fuel with
  | zero => omega
  | succ f ih =>
    intro n ds hlt
    show (if n / 10 = 0 then Nat.digitChar (n % 10) :: ds
          else Nat.toDigitsCore 10 f (n / 10) (Nat.digitChar (n % 10) :: ds)) =
        decDigits n ++ ds
    by_cases h0 : n / 10 = 0
    · have hn : n < 10 := by omega
      rw [if_pos h0, decDigits_lt hn, Nat.mod_eq_of_lt hn]
      rfl
    · have hn : ¬ n < 10 := by omega
      rw [if_neg h0, ih (n / 10) (Nat.digitChar (n % 10) :: ds) (by omega),
        decDigits_ge hn, List.append_assoc]
      rfl

theorem natRepr_eq_decDigits (n : Nat) : Nat.repr n = (decDigits n).asString := by
  show (Nat.toDigitsCore 10 (n + 1) n []).asString = (decDigits n).asString
  rw [toDigitsCore_eq_decDigits (n + 1) n [] (Nat.lt_succ_self n), List.append_nil]

theorem digitChar_inj_lt :
    ∀ a, a < 10 → ∀ b, b < 10 → Nat.digitChar a = Nat.digitChar b → a = b := by
  decide

theorem decDigits_inj (m : Nat) : ∀ n, decDigits m = decDigits n → m = n := by
  induction m using Nat.strong_induction_on with
  | _ m ih =>
    intro n h
    by_cases hm : m < 10 <;> by_cases hn : n < 10
    · rw [decDigits_lt hm, decDigits_lt hn] at h
      exact digitChar_inj_lt m hm n hn (List.cons.injEq .. ▸ h).1
    · rw [decDigits_lt hm, decDigits_ge hn] at h
      have := congrArg List.length h
      simp at this
      exact absurd this (decDigits_ne_nil (n / 10))
    · rw [decDigits_ge hm, decDigits_lt hn] at h
      have := congrArg List.length h
      simp at this
      exact absurd this (decDigits_ne_nil (m / 10))
    · rw [decDigits_ge hm, decDigits_ge hn] at h
      have hparts := List.append_inj' h (by simp)
      have hdiv : m / 10 = n / 10 :=
        ih (m / 10) (Nat.div_lt_self (by omega) (by omega)) (n / 10) hparts.1
      have hmod : m % 10 = n % 10 :=
        digitChar_inj_lt (m % 10) (Nat.mod_lt m (by omega)) (n % 10)
          (Nat.mod_lt n (by omega)) (List.cons.injEq .. ▸ hparts.2).1
      omega

theorem natRepr_injective {m n : Nat} (h : Nat.repr m = Nat.repr n) : m = n := by
  rw [natRepr_eq_decDigits, natRepr_eq_decDigits] at h
  exact decDigits_inj m n (List.asString_inj.mp h)

/-! ## Round-trip of the JSON encoding -/

theorem decodeNote_encodeNote (n : VoiceNote) : decodeNote (encodeNote n) = some n := rfl

theorem decodeNoteList_map_encode (ns : List VoiceNote) :
    decodeNoteList (ns.map encodeNote) = some ns := by
  induction ns with
  | nil => rfl
  | cons n rest ih =>
    show (match decodeNote (encodeNote n), decodeNoteList (rest.map encodeNote) with
          | some v, some vs => some (v :: vs)
          | _, _ => none) = some (n :: rest)
    rw [decodeNote_encodeNote, ih]

theorem decodeNotes_encodeNotes (ns : List VoiceNote) :
    decodeNotes (encodeNotes ns) = some ns := by
  show decodeNoteList (ns.map encodeNote) = some ns
  exact decodeNoteList_map_encode ns

theorem loadNotes_persistNotes (ns : List VoiceNote) :
    loadNotes (persistNotes ns) = .notes ns := by
  show (match decodeNotes (encodeNotes ns) with
        | some vs => LoadResult.notes vs
        | none => LoadResult.illFormed (encodeNotes ns)) = LoadResult.notes ns
  rw [decodeNotes_encodeNotes]

/-! ## Characterisation of the substring check -/

theorem hasInfix_iff (pat : List Char) : ∀ l, hasInfix l pat = true ↔ pat <:+: l := by
  intro l
  induction l with
  | nil =>
    rw [hasInfix]
    by_cases hp : pat.isPrefixOf ([] : List Char) = true
    · rw [if_pos hp]
      simp only [true_iff]
      exact (List.isPrefixOf_iff_prefix.mp hp).isInfix
    · rw [if_neg hp]
      show (false = true) ↔ pat <:+: ([] : List Char)
      simp only [Bool.false_eq_true, false_iff]
      intro hinf
      have : pat = [] := List.infix_nil.mp hinf
      subst this
      exact hp (by rfl)
  | cons a rest ih =>
    rw [hasInfix]
    by_cases hp : pat.isPrefixOf (a :: rest) = true
    · rw [if_pos hp]
      simp only [true_iff]
      exact (List.isPrefixOf_iff_prefix.mp hp).isInfix
    · rw [if_neg hp]
      show hasInfix rest pat = true ↔ pat <:+: a :: rest
      rw [ih]
      constructor
      · exact List.infix_cons
      · intro hinf
        rcases List.infix_cons_iff.mp hinf with hpre | hrest
        · exact absurd (List.isPrefixOf_iff_prefix.mpr hpre) hp
        · exact hrest

theorem strIncludes_iff (haystack needle : String) :
    strIncludes haystack needle = true ↔ needle.data <:+: haystack.data :=
  hasInfix_iff needle.data haystack.data

theorem strIncludes_empty (haystack : String) : strIncludes haystack "" = true :=
  (strIncludes_iff haystack "").mpr (by simp)

/-! ## Toggle lemmas -/

theorem toggleNoteCompletion_involutive (notes : List VoiceNote) (id : String) :
    toggleNoteCompletion (toggleNoteCompletion notes id) id = notes := by
  induction notes with
  | nil => rfl
  | cons n rest ih =>
    simp only [toggleNoteCompletion, List.map_cons] at ih ⊢
    rw [ih]
    by_cases h : (n.id == id) = true
    · simp [h, Bool.not_not]
    · simp [h]

theorem toggleNoteCompletion_absent (notes : List VoiceNote) (id : String)
    (h : ∀ n ∈ notes, n.id ≠ id) : toggleNoteCompletion notes id = notes := by
  induction notes with
  | nil => rfl
  | cons n rest ih =>
    simp only [toggleNoteCompletion, List.map_cons] at ih ⊢
    have hn : (n.id == id) = false := by
      simpa using h n (List.mem_cons_self n rest)
    rw [hn]
    simp only [Bool.false_eq_true, if_false]
    rw [ih fun m hm => h m (List.mem_cons_of_mem n hm)]

/-! ## Trace utilities -/

theorem runApp_append (s : AppState) (es fs : List AppEvent) :
    runApp s (es ++ fs) = runApp (runApp s es) fs := by
  simp [runApp, List.foldl_append]

theorem runApp_selects (s : AppState) (ds : List CalDate) :
    runApp s (ds.map AppEvent.selectDate) =
      { s with selectedDate := ds.getLastD s.selectedDate } := by
  induction ds generalizing s with
  | nil => rfl
  | cons d ds ih =>
    show runApp (appStep s (.selectDate d)) (ds.map .selectDate) = _
    rw [show appStep s (.selectDate d) = { s with selectedDate := d } from rfl, ih,
      List.getLastD_cons]

/-! ## Claims about loading (C2) -/

/-- Claim C2, counterexample: the claim says a corrupt storage record is
treated exactly like an absent one and yields the empty collection with no
error surfaced.  On a storage string that `JSON.parse` rejects, the load
effect instead lets the parse exception escape (there is no `try`/`catch`
around `JSON.parse(savedNotes)`), which is not the empty-collection
outcome. -/
theorem claim2_counterexample :
    loadNotes .malformed = .thrown ∧ LoadResult.thrown ≠ LoadResult.notes [] :=
  ⟨rfl, fun h => LoadResult.noConfusion h⟩

/-- Claim C2 (amended): `load()` yields the persisted collection when the
storage record is well-formed (written by the persist effect), and the
empty collection when the record is absent; but a corrupt (unparseable)
record is not treated like an absent one — the `JSON.parse` exception
escapes the load effect uncaught. -/
theorem claim2_load_amended :
    (∀ ns : List VoiceNote, loadNotes (persistNotes ns) = .notes ns) ∧
    loadNotes .absent = .notes [] ∧
    loadNotes .malformed = .thrown :=
  ⟨loadNotes_persistNotes, rfl, rfl⟩

/-! ## Claims about the store operations (C7, C8, C9) -/

/-- Claim C7: `filteredNotes` (the spec's `query(date, searchSubstring)`)
returns exactly the notes whose `date` equals the formatted selected date
and whose text contains the search term case-insensitively (both sides
lowercased, substring containment); the result is a sublist of the store,
so insertion order is preserved; and the empty search term selects exactly
the notes of that date.  The function is a pure `Array.filter`, so it
mutates nothing — purity is intrinsic to the embedding. -/
theorem claim7_query_characterisation (notes : List VoiceNote) (d : CalDate)
    (term : String) :
    (∀ n, n ∈ filteredNotes notes d term ↔
        n ∈ notes ∧ n.date = formatDate d ∧
          (strToLower term).data <:+: (strToLower n.text).data) ∧
    (filteredNotes notes d term).Sublist notes ∧
    filteredNotes notes d "" = notes.filter (fun n => n.date == formatDate d) := by
  refine ⟨?_, List.filter_sublist notes, ?_⟩
  · intro n
    simp only [filteredNotes, List.mem_filter, Bool.and_eq_true, beq_iff_eq,
      strIncludes_iff, and_assoc]
  · show notes.filter _ = notes.filter _
    apply List.filter_congr
    intro n _
    rw [show strToLower "" = "" from rfl, strIncludes_empty, Bool.and_true]

/-- Claim C7, witness: the characterisation applied to the spec's own
scenario store. -/
theorem claim7_witness :
    filteredNotes [⟨"1", "2024-01-10", "buy milk", false⟩] ⟨2024, 1, 10⟩ "" =
      [⟨"1", "2024-01-10", "buy milk", false⟩] := by
  rw [(claim7_query_characterisation [⟨"1", "2024-01-10", "buy milk", false⟩]
    ⟨2024, 1, 10⟩ "").2.2]
  decide

/-- Claim C8: after any finite sequence of `insert`/`delete`/`toggle`
mutations, the persisted collection (every mutation re-persists the whole
collection through the `useEffect` on `voiceNotes`) reloads to a
collection equal to the in-memory one. -/
theorem claim8_roundtrip (s0 : List VoiceNote) (ops : List StoreOp) :
    loadNotes (persistNotes (applyStoreOps s0 ops)) = .notes (applyStoreOps s0 ops) :=
  loadNotes_persistNotes _

/-- Claim C9: `toggleNoteCompletion` applied twice with the same id
restores the store, and a toggle with an id absent from the store is a
no-op. -/
theorem claim9_toggle_involution (notes : List VoiceNote) (id : String) :
    toggleNoteCompletion (toggleNoteCompletion notes id) id = notes ∧
    ((∀ n ∈ notes, n.id ≠ id) → toggleNoteCompletion notes id = notes) :=
  ⟨toggleNoteCompletion_involutive notes id, toggleNoteCompletion_absent notes id⟩

/-- Claim C9, witness: the involution at a concrete store and the absent
case at an id not present. -/
theorem claim9_witness :
    toggleNoteCompletion (toggleNoteCompletion [⟨"1", "2024-01-10", "buy milk", false⟩] "1") "1" =
      [⟨"1", "2024-01-10", "buy milk", false⟩] ∧
    toggleNoteCompletion [⟨"1", "2024-01-10", "buy milk", false⟩] "2" =
      [⟨"1", "2024-01-10", "buy milk", false⟩] :=
  ⟨(claim9_toggle_involution [⟨"1", "2024-01-10", "buy milk", false⟩] "1").1,
   (claim9_toggle_involution [⟨"1", "2024-01-10", "buy milk", false⟩] "2").2 (by decide)⟩

/-! ## Claims about transcription responses (C3, C6) -/

/-- Claim C3, counterexample: the claim says a 2xx response whose JSON
body lacks a string `text` field fails with a malformed-response error and
inserts no note.  On the body `{}` (HTTP 200) the code instead succeeds:
`data.text` evaluates to `undefined` without throwing, and a note whose
`text` is `undefined` is constructed and inserted. -/
theorem claim3_counterexample :
    transcribeAudio ⟨⟨2024, 1, 10⟩, []⟩ 100 (.http 200 (.json (.obj []))) =
      .success ⟨"100", "2024-01-10", none, false⟩ := rfl

/-- Claim C3 (amended): a 2xx response whose body is not valid JSON fails
(`response.json()` rejects, the error is caught, no note is inserted and
the store is unchanged); but a 2xx response whose body is valid JSON does
not fail for lack of a `text` field — a note is inserted whose `text`
field holds whatever `data.text` evaluated to (`undefined` when the field
is absent). -/
theorem claim3_transcription_body_amended :
    (∀ (c : Closure) (now status : Nat), respOk status = true →
      transcribeAudio c now (.http status .invalidJson) = .failure .invalidJsonBody) ∧
    (∀ (c : Closure) (now status : Nat) (j : Json), respOk status = true →
      j.isNull = false →
      transcribeAudio c now (.http status (.json j)) =
        .success ⟨Nat.repr now, formatDate c.selectedDate, j.lookup "text", false⟩) ∧
    (∀ (s : AppState) (idx now status : Nat) (c : Closure),
      s.inflight[idx]? = some c → respOk status = true →
      (appStep s (.resolve idx now (.http status .invalidJson))).voiceNotes = s.voiceNotes ∧
      (appStep s (.resolve idx now (.http status .invalidJson))).errorsReported =
        s.errorsReported + 1) := by
  refine ⟨?_, ?_, ?_⟩
  · intro c now status h
    simp [transcribeAudio, h]
  · intro c now status j h hj
    simp [transcribeAudio, h, hj]
  · intro s idx now status c hc h
    refine ⟨?_, ?_⟩ <;> simp [appStep, hc, transcribeAudio, h]

/-- Claim C3, witness: the amended statement instantiated at HTTP 200 with
body `{"ok": true}` (valid JSON, no `text` field). -/
theorem claim3_witness :
    respOk 200 = true ∧
    transcribeAudio ⟨⟨2024, 1, 10⟩, []⟩ 5 (.http 200 (.json (.obj [("ok", .bool true)]))) =
      .success ⟨Nat.repr 5, formatDate ⟨2024, 1, 10⟩,
        Json.lookup (.obj [("ok", .bool true)]) "text", false⟩ :=
  ⟨by decide,
   claim3_transcription_body_amended.2.1 ⟨⟨2024, 1, 10⟩, []⟩ 5 200
     (.obj [("ok", .bool true)]) (by decide) rfl⟩

/-- Claim C6: a non-2xx response makes `transcribeAudio` throw an error
carrying the status (`HTTP error! status: ...`), which is caught and
reported; no note is inserted and the store is unchanged. -/
theorem claim6_non2xx_failure (c : Closure) (now status : Nat) (body : RespBody)
    (h : respOk status = false) :
    transcribeAudio c now (.http status body) = .failure (.httpStatus status) ∧
    ∀ (s : AppState) (idx : Nat), s.inflight[idx]? = some c →
      (appStep s (.resolve idx now (.http status body))).voiceNotes = s.voiceNotes ∧
      (appStep s (.resolve idx now (.http status body))).errorsReported =
        s.errorsReported + 1 := by
  constructor
  · simp [transcribeAudio, h]
  · intro s idx hidx
    refine ⟨?_, ?_⟩ <;> simp [appStep, hidx, transcribeAudio, h]

/-- Claim C6, witness: HTTP 401 against a state with one in-flight
transcription. -/
theorem claim6_witness :
    respOk 401 = false ∧
    transcribeAudio ⟨⟨2024, 1, 10⟩, []⟩ 7 (.http 401 (.json (.obj []))) =
      .failure (.httpStatus 401) ∧
    (appStep ⟨⟨2024, 1, 10⟩, [], false, none, [], [⟨⟨2024, 1, 10⟩, []⟩], 0, 0⟩
        (.resolve 0 7 (.http 401 (.json (.obj []))))).voiceNotes = [] :=
  ⟨by decide,
   (claim6_non2xx_failure ⟨⟨2024, 1, 10⟩, []⟩ 7 401 (.json (.obj [])) (by decide)).1,
   ((claim6_non2xx_failure ⟨⟨2024, 1, 10⟩, []⟩ 7 401 (.json (.obj [])) (by decide)).2
     ⟨⟨2024, 1, 10⟩, [], false, none, [], [⟨⟨2024, 1, 10⟩, []⟩], 0, 0⟩ 0 rfl).1⟩

/-! ## Claim about device-acquisition failure (C4) -/

/-- Claim C4 (code bug): when `getUserMedia` rejects, the error is
reported (`console.error` in the `catch`), but the caller is not returned
to the idle state: `startRecording` ran `setRecording(true)` before the
`try` and its `catch` block never resets it, so `recording` stays `true`
— the record button stays disabled and `stopRecording`'s
`if (mediaRecorder && recording)` guard fails (`mediaRecorder` is still
`null`), so even the stop button cannot reset the flag. -/
theorem claim4_device_failure_leaves_recording_flag :
    (runApp (initState ⟨2024, 1, 10⟩ []) [.clickRecord, .deviceDenied]).recording = true ∧
    (runApp (initState ⟨2024, 1, 10⟩ []) [.clickRecord, .deviceDenied]).errorsReported = 1 ∧
    (runApp (initState ⟨2024, 1, 10⟩ [])
      [.clickRecord, .deviceDenied, .clickStop]).recording = true :=
  ⟨rfl, rfl, rfl⟩

/-! ## Claim about the date snapshot (C1) -/

theorem runApp_cons (s : AppState) (e : AppEvent) (es : List AppEvent) :
    runApp s (e :: es) = runApp (appStep s e) es := rfl

/-- Claim C1, counterexample: the claim says the inserted note's `date` is
the selected date at the moment recording was stopped.  In the trace
"select 2024-01-10, record, change selection to 2024-01-11, stop,
transcription succeeds", the selected date at the stop click is
2024-01-11, yet the inserted note carries 2024-01-10: `transcribeAudio`
reads `selectedDate` from the render closure captured when the record
button was clicked, so the snapshot is taken at start-of-recording, not at
stop. -/
theorem claim1_counterexample :
    ((runApp (initState ⟨2024, 1, 10⟩ [])
        [.clickRecord, .deviceGranted, .selectDate ⟨2024, 1, 11⟩, .clickStop,
         .resolve 0 100 (.http 200 (.json (.obj [("text", .str "hello")])))]).voiceNotes.map
      (fun n => n.date)) = [formatDate ⟨2024, 1, 10⟩] ∧
    formatDate ⟨2024, 1, 10⟩ ≠ formatDate ⟨2024, 1, 11⟩ := by
  exact ⟨rfl, by decide⟩

/-- Claim C1 (amended): for a recording that ends in a successful
transcription, the `date` of the inserted note is the user's selected date
at the moment recording was *started* (the value captured by the render
closure of the record-button click), formatted `yyyy-MM-dd`; it is
unaffected by selection changes made while waiting for the device, while
recording, and while the transcription request is in flight. -/
theorem claim1_date_snapshot_amended (d0 : CalDate) (loaded : List RtNote)
    (ds1 ds2 ds3 ds4 : List CalDate) (now status : Nat) (j : Json)
    (hok : respOk status = true) (hj : j.isNull = false) :
    (runApp (initState d0 loaded)
        (ds1.map .selectDate ++ (.clickRecord ::
          (ds2.map .selectDate ++ (.deviceGranted ::
          (ds3.map .selectDate ++ (.clickStop ::
          (ds4.map .selectDate ++
          [.resolve 0 now (.http status (.json j))])))))))).voiceNotes =
      loaded ++ [⟨Nat.repr now, formatDate (ds1.getLastD d0),
        Json.lookup j "text", false⟩] := by
  rw [runApp_append, runApp_selects, runApp_cons, runApp_append, runApp_selects,
    runApp_cons, runApp_append, runApp_selects, runApp_cons, runApp_append,
    runApp_selects]
  simp [runApp, appStep, initState, transcribeAudio, hok, hj]

/-- Claim C1, witness: the amended statement at a concrete trace in which
the selection changes both during recording and while the request is in
flight. -/
theorem claim1_witness :
    respOk 200 = true ∧
    (runApp (initState ⟨2024, 1, 10⟩ [])
        (([] : List CalDate).map .selectDate ++ (.clickRecord ::
          (([] : List CalDate).map .selectDate ++ (.deviceGranted ::
          ([(⟨2024, 1, 11⟩ : CalDate)].map .selectDate ++ (.clickStop ::
          ([(⟨2024, 1, 12⟩ : CalDate)].map .selectDate ++
          [.resolve 0 42 (.http 200 (.json (.obj [("text", .str "hi")])))])))))))).voiceNotes =
      [] ++ [⟨Nat.repr 42, formatDate (([] : List CalDate).getLastD ⟨2024, 1, 10⟩),
        Json.lookup (.obj [("text", .str "hi")]) "text", false⟩] :=
  ⟨by decide,
   claim1_date_snapshot_amended ⟨2024, 1, 10⟩ [] [] [] [⟨2024, 1, 11⟩] [⟨2024, 1, 12⟩]
     42 200 (.obj [("text", .str "hi")]) (by decide) rfl⟩

/-! ## Claim about double start (C5) -/

/-- Claim C5, counterexample: the claim says every two `start()` calls
with no intervening `stop()` produce exactly one device acquisition.  In
the trace below the fourth and sixth events are two record-button clicks
with no stop click between them, yet acquisitions rise from 1 to 3: the
`finally { setRecording(false) }` of the first recording's transcription
completes between the two clicks, re-enabling the record button while the
`getUserMedia` promise of the first of the two clicks is still pending, so
both clicks acquire a device. -/
theorem claim5_counterexample :
    (runApp (initState ⟨2024, 1, 10⟩ [])
      [.clickRecord, .deviceGranted, .clickStop, .clickRecord]).acquisitions = 1 ∧
    (runApp (initState ⟨2024, 1, 10⟩ [])
      [.clickRecord, .deviceGranted, .clickStop, .clickRecord,
       .resolve 0 100 (.http 200 (.json (.obj [("text", .str "a")]))),
       .clickRecord, .deviceGranted, .deviceGranted]).acquisitions = 3 :=
  ⟨rfl, rfl⟩

/-- Claim C5 (amended): clicking the record button while `recording` is
`true` is a no-op (the button is rendered with `disabled={recording}`), so
two record clicks with no intervening stop *and no transcription
completion between them* yield exactly one device acquisition.  (A
transcription settling between the clicks resets `recording` via its
`finally` block, re-enabling the button, after which a second click does
acquire a second device handle.) -/
theorem claim5_single_acquisition_amended (s : AppState) :
    (s.recording = true → appStep s .clickRecord = s) ∧
    (s.recording = false → s.pendingStart = [] →
      (runApp s [.clickRecord, .deviceGranted, .clickRecord]).acquisitions =
        s.acquisitions + 1 ∧
      (runApp s [.clickRecord, .clickRecord, .deviceGranted]).acquisitions =
        s.acquisitions + 1) := by
  constructor
  · intro h
    simp [appStep, h]
  · intro h hp
    constructor <;> simp [runApp, appStep, h, hp]

/-- Claim C5, witness: the no-op at a state already recording, and the
single acquisition from an idle state. -/
theorem claim5_witness :
    appStep ⟨⟨2024, 1, 10⟩, [], true, none, [], [], 0, 0⟩ .clickRecord =
      ⟨⟨2024, 1, 10⟩, [], true, none, [], [], 0, 0⟩ ∧
    (runApp (initState ⟨2024, 1, 10⟩ [])
      [.clickRecord, .deviceGranted, .clickRecord]).acquisitions =
      (initState ⟨2024, 1, 10⟩ []).acquisitions + 1 :=
  ⟨(claim5_single_acquisition_amended ⟨⟨2024, 1, 10⟩, [], true, none, [], [], 0, 0⟩).1 rfl,
   ((claim5_single_acquisition_amended (initState ⟨2024, 1, 10⟩ [])).2 rfl rfl).1⟩

/-! ## Claim about id uniqueness (C10) -/

/-- Claim C10, counterexample: the claim says note ids are pairwise
distinct in every reachable store.  Ids are `Date.now().toString()`, so
two record-and-transcribe sequences whose transcriptions complete in the
same millisecond produce two notes with the same id: the trace below ends
with a store whose two notes both carry id `"100"`. -/
theorem claim10_counterexample :
    ((runApp (initState ⟨2024, 1, 10⟩ [])
        [.clickRecord, .deviceGranted, .clickStop,
         .resolve 0 100 (.http 200 (.json (.obj [("text", .str "a")]))),
         .clickRecord, .deviceGranted, .clickStop,
         .resolve 0 100 (.http 200 (.json (.obj [("text", .str "b")])))]).voiceNotes.map
      RtNote.id) = ["100", "100"] ∧
    ¬ (["100", "100"] : List String).Nodup :=
  ⟨rfl, by decide⟩

/-- A note id is the decimal representation of a clock reading below the
bound. -/
def idOk (bound : Nat) (n : RtNote) : Prop :=
  ∃ t, t < bound ∧ n.id = Nat.repr t

/-- A note list whose ids are timestamps below the bound and pairwise
distinct. -/
def notesOk (bound : Nat) (L : List RtNote) : Prop :=
  (∀ n ∈ L, idOk bound n) ∧ (L.map RtNote.id).Nodup

/-- A captured render closure whose note snapshot satisfies `notesOk`. -/
def closOk (bound : Nat) (c : Closure) : Prop :=
  notesOk bound c.voiceNotes

/-- Invariant: the live store and every note snapshot captured in a
pending start, the recorder's listener or an in-flight transcription
satisfy `notesOk`. -/
def stateOk (bound : Nat) (s : AppState) : Prop :=
  notesOk bound s.voiceNotes ∧
  (∀ c ∈ s.pendingStart, closOk bound c) ∧
  (∀ c b, s.mediaRecorder = some (c, b) → closOk bound c) ∧
  (∀ c ∈ s.inflight, closOk bound c)

theorem notesOk_mono {b b' : Nat} (h : b ≤ b') {L : List RtNote} :
    notesOk b L → notesOk b' L := by
  rintro ⟨h1, h2⟩
  refine ⟨fun n hn => ?_, h2⟩
  obtain ⟨t, ht, he⟩ := h1 n hn
  exact ⟨t, by omega, he⟩

theorem stateOk_mono {b b' : Nat} (h : b ≤ b') {s : AppState} :
    stateOk b s → stateOk b' s := by
  rintro ⟨h1, h2, h3, h4⟩
  exact ⟨notesOk_mono h h1, fun c hc => notesOk_mono h (h2 c hc),
    fun c bb hc => notesOk_mono h (h3 c bb hc), fun c hc => notesOk_mono h (h4 c hc)⟩

theorem notesOk_append_new {b now : Nat} {L : List RtNote} {note : RtNote}
    (hL : notesOk b L) (hb : b ≤ now) (hid : note.id = Nat.repr now) :
    notesOk (now + 1) (L ++ [note]) := by
  constructor
  · intro n hn
    rcases List.mem_append.mp hn with h | h
    · obtain ⟨t, ht, he⟩ := hL.1 n h
      exact ⟨t, by omega, he⟩
    · have hn' : n = note := List.mem_singleton.mp h
      subst hn'
      exact ⟨now, Nat.lt_succ_self now, hid⟩
  · rw [List.map_append]
    refine List.nodup_append.mpr ⟨hL.2, List.nodup_singleton _, ?_⟩
    intro a ha hb'
    rcases List.mem_map.mp ha with ⟨m, hm, rfl⟩
    obtain ⟨t, ht, he⟩ := hL.1 m hm
    have hnote : m.id = note.id := by
      simpa using hb'
    rw [he, hid] at hnote
    have : t = now := natRepr_injective hnote
    omega

/-- The constructed note's id is always the `Date.now()` reading at
response time. -/
theorem transcribeAudio_success_id (c : Closure) (now : Nat)
    (resp : TranscriptionResponse) (note : RtNote)
    (h : transcribeAudio c now resp = .success note) : note.id = Nat.repr now := by
  cases resp with
  | networkFailure => exact absurd h (by simp [transcribeAudio])
  | http status body =>
    by_cases hok : respOk status = true
    · cases body with
      | invalidJson => simp [transcribeAudio, hok] at h
      | json j =>
        by_cases hj : j.isNull = true
        · simp [transcribeAudio, hok, hj] at h
        · simp only [transcribeAudio, hok, if_true, hj, Bool.not_eq_true] at h
          rw [if_neg (by simp [hj])] at h
          cases h
          rfl
    · simp [transcribeAudio, hok] at h

/-- Bound bookkeeping: a resolution advances the bound past its
`Date.now()` reading. -/
def nextBound (b : Nat) (e : AppEvent) : Nat :=
  match e with
  | .resolve _ now _ => now + 1
  | _ => b

theorem stateOk_step {b : Nat} {s : AppState} {e : AppEvent} (hs : stateOk b s)
    (hb : ∀ idx now resp, e = .resolve idx now resp → b ≤ now) :
    stateOk (nextBound b e) (appStep s e) := by
  obtain ⟨h1, h2, h3, h4⟩ := hs
  cases e with
  | selectDate d => exact ⟨h1, h2, h3, h4⟩
  | clickRecord =>
    by_cases hr : s.recording = true
    · simp only [appStep, hr, if_true]
      exact ⟨h1, h2, h3, h4⟩
    · simp only [appStep, hr, if_false]
      refine ⟨h1, ?_, h3, h4⟩
      intro c hc
      rcases List.mem_append.mp hc with h | h
      · exact h2 c h
      · rw [List.mem_singleton.mp h]
        exact h1
  | deviceGranted =>
    cases hp : s.pendingStart with
    | nil =>
      simp only [appStep, hp]
      exact ⟨h1, h2, h3, h4⟩
    | cons c rest =>
      simp only [appStep, hp]
      refine ⟨h1, ?_, ?_, h4⟩
      · intro c' hc'
        exact h2 c' (hp ▸ List.mem_cons_of_mem c hc')
      · intro c' bb hcc
        injection hcc with heq
        injection heq with heq1 _
        rw [← heq1]
        exact h2 c (hp ▸ List.mem_cons_self c rest)
  | deviceDenied =>
    cases hp : s.pendingStart with
    | nil =>
      simp only [appStep, hp]
      exact ⟨h1, h2, h3, h4⟩
    | cons c rest =>
      simp only [appStep, hp]
      refine ⟨h1, ?_, h3, h4⟩
      intro c' hc'
      exact h2 c' (hp ▸ List.mem_cons_of_mem c hc')
  | clickStop =>
    by_cases hr : s.recording = true
    · cases hm : s.mediaRecorder with
      | none =>
        simp only [appStep, hr, if_true, hm]
        exact ⟨h1, h2, h3, h4⟩
      | some p =>
        obtain ⟨c, active⟩ := p
        cases active with
        | true =>
          simp only [appStep, hr, if_true, hm]
          refine ⟨h1, h2, ?_, ?_⟩
          · intro c' bb hcc
            injection hcc with heq
            injection heq with heq1 _
            rw [← heq1]
            exact h3 c true hm
          · intro c' hc'
            rcases List.mem_append.mp hc' with h | h
            · exact h4 c' h
            · rw [List.mem_singleton.mp h]
              exact h3 c true hm
        | false =>
          simp only [appStep, hr, if_true, hm, Bool.false_eq_true, if_false]
          refine ⟨h1, h2, ?_, h4⟩
          intro c' bb hcc
          injection hcc with heq
          injection heq with heq1 _
          rw [← heq1]
          exact h3 c false hm
    · simp only [appStep, hr, if_false]
      exact ⟨h1, h2, h3, h4⟩
  | resolve idx now resp =>
    have hbn : b ≤ now := hb idx now resp rfl
    show stateOk (now + 1) (appStep s (.resolve idx now resp))
    cases hg : s.inflight[idx]? with
    | none =>
      simp only [appStep, hg]
      exact stateOk_mono (by omega) ⟨h1, h2, h3, h4⟩
    | some c =>
      have hc : closOk b c := h4 c (List.getElem?_mem hg)
      cases ht : transcribeAudio c now resp with
      | success note =>
        simp only [appStep, hg, ht]
        refine ⟨?_, ?_, ?_, ?_⟩
        · exact notesOk_append_new hc hbn (transcribeAudio_success_id c now resp note ht)
        · intro c' hc'
          exact notesOk_mono (by omega) (h2 c' hc')
        · intro c' bb hcc
          exact notesOk_mono (by omega) (h3 c' bb hcc)
        · intro c' hc'
          exact notesOk_mono (by omega) (h4 c' (List.eraseIdx_subset _ _ hc'))
      | failure err =>
        simp only [appStep, hg, ht]
        refine ⟨notesOk_mono (by omega) h1, ?_, ?_, ?_⟩
        · intro c' hc'
          exact notesOk_mono (by omega) (h2 c' hc')
        · intro c' bb hcc
          exact notesOk_mono (by omega) (h3 c' bb hcc)
        · intro c' hc'
          exact notesOk_mono (by omega) (h4 c' (List.eraseIdx_subset _ _ hc'))

theorem stateOk_runApp : ∀ (es : List AppEvent) (s : AppState) (b : Nat),
    stateOk b s → (resolveNows es).Pairwise (· < ·) →
    (∀ t ∈ resolveNows es, b ≤ t) →
    ∃ b', stateOk b' (runApp s es) := by
  intro es
  induction es with
  | nil => exact fun s b hs _ _ => ⟨b, hs⟩
  | cons e rest ih =>
    intro s b hs hp hb
    cases e with
    | resolve idx now resp =>
      have hrn : resolveNows (.resolve idx now resp :: rest) = now :: resolveNows rest := rfl
      rw [hrn] at hp hb
      have hpc := List.pairwise_cons.mp hp
      have hble : ∀ (i n : Nat) (r : TranscriptionResponse),
          AppEvent.resolve idx now resp = .resolve i n r → b ≤ n := by
        intro i n r h
        injection h with _ h2 _
        rw [← h2]
        exact hb now (List.mem_cons_self _ _)
      have hstep := stateOk_step hs hble
      rw [runApp_cons]
      refine ih (appStep s _) (now + 1) hstep hpc.2 ?_
      intro t htr
      have := hpc.1 t htr
      omega
    | selectDate d =>
      rw [runApp_cons]
      exact ih _ b (stateOk_step hs (fun i n r h => nomatch h)) hp hb
    | clickRecord =>
      rw [runApp_cons]
      exact ih _ b (stateOk_step hs (fun i n r h => nomatch h)) hp hb
    | deviceGranted =>
      rw [runApp_cons]
      exact ih _ b (stateOk_step hs (fun i n r h => nomatch h)) hp hb
    | deviceDenied =>
      rw [runApp_cons]
      exact ih _ b (stateOk_step hs (fun i n r h => nomatch h)) hp hb
    | clickStop =>
      rw [runApp_cons]
      exact ih _ b (stateOk_step hs (fun i n r h => nomatch h)) hp hb

/-- Claim C10 (amended): starting from an empty store, note ids are
pairwise distinct in every reachable store state *provided* the
`Date.now()` readings at the transcription completions of the trace are
strictly increasing.  The id is the millisecond timestamp's decimal
string, so two notes created in the same millisecond collide — uniqueness
holds exactly up to clock granularity. -/
theorem claim10_distinct_ids_amended (d0 : CalDate) (es : List AppEvent)
    (h : (resolveNows es).Pairwise (· < ·)) :
    ((runApp (initState d0 []) es).voiceNotes.map RtNote.id).Nodup := by
  have h0 : stateOk 0 (initState d0 []) := by
    refine ⟨⟨?_, ?_⟩, ?_, ?_, ?_⟩ <;> simp [initState]
  obtain ⟨b', hb'⟩ := stateOk_runApp es (initState d0 []) 0 h0 h (fun t _ => Nat.zero_le t)
  exact hb'.1.2

/-- Claim C10, witness: two complete record-and-transcribe sequences whose
completions happen at distinct clock readings produce distinct ids. -/
theorem claim10_witness :
    (resolveNows [AppEvent.clickRecord, .deviceGranted, .clickStop,
        .resolve 0 100 (.http 200 (.json (.obj [("text", .str "a")]))),
        .clickRecord, .deviceGranted, .clickStop,
        .resolve 0 101 (.http 200 (.json (.obj [("text", .str "b")])))]).Pairwise (· < ·) ∧
    ((runApp (initState ⟨2024, 1, 10⟩ [])
        [AppEvent.clickRecord, .deviceGranted, .clickStop,
         .resolve 0 100 (.http 200 (.json (.obj [("text", .str "a")]))),
         .clickRecord, .deviceGranted, .clickStop,
         .resolve 0 101 (.http 200 (.json (.obj [("text", .str "b")])))]).voiceNotes.map
      RtNote.id).Nodup :=
  ⟨by decide, claim10_distinct_ids_amended ⟨2024, 1, 10⟩ _ (by decide)⟩
